import Mathlib

/-!
Verification development for the `abbaskiko/controllers` repository.

The repository's single source file holds two modules:

* `SwapsController` (a class caching swap quotes and selecting the best one);
* a Redux-style `CurrencyRateController` slice (reducers, a poller and an
  `updateCurrency` thunk for a currency conversion rate).

Numbers handled by `BigNumber` (arbitrary-precision decimals) and by plain
JavaScript numbers are modelled as rationals (`ℚ`); timestamps
(`Date.now()` values) as naturals.  Base conversions
(`new BigNumber(x, 16)`, `.toString(16)`) are value-preserving and are
absorbed by modelling field values directly as rationals.  Asynchronous
fetches become explicit parameters: a fetch's outcome is an argument, and
state mutations performed by the environment while a fetch is in flight
are an explicit function on states.
-/

/-! ## Currency rate controller state (`CurrencyRateState`, lines 434-454) -/

/-- The `CurrencyRateState` record of the currency-rate slice.
`pollingStartTime` and `updateStartTime` are optional (`undefined` is `none`);
`pendingCurrentCurrency` and `pendingNativeCurrency` are nullable strings. -/
structure CurrencyRateState where
  conversionDate : ℕ
  conversionRate : ℚ
  currentCurrency : String
  nativeCurrency : String
  pendingCurrentCurrency : Option String
  pendingNativeCurrency : Option String
  pollingStartTime : Option ℕ
  updateStartTime : Option ℕ
deriving DecidableEq, Repr

/-- The slice's `initialState` (lines 445-454). -/
def initialCurrencyRateState : CurrencyRateState :=
  { conversionDate := 0
    conversionRate := 0
    currentCurrency := "usd"
    nativeCurrency := "ETH"
    pendingCurrentCurrency := none
    pendingNativeCurrency := none
    pollingStartTime := none
    updateStartTime := none }

/-- JavaScript truthiness of a nullable string: `null` and the empty string
are falsy, every other string is truthy. -/
def strTruthy : Option String → Bool
  | none => false
  | some c => ¬ (c = "")

/-! ## Reducers (lines 471-512) -/

/-- Reducer `pollingStarted` (lines 471-473): stores the payload as
`pollingStartTime`. -/
def pollingStarted (t : ℕ) (s : CurrencyRateState) : CurrencyRateState :=
  { s with pollingStartTime := some t }

/-- Reducer `pollingStopped` (lines 474-476): clears `pollingStartTime`. -/
def pollingStopped (s : CurrencyRateState) : CurrencyRateState :=
  { s with pollingStartTime := none }

/-- Reducer `pollFinished` (lines 477-481): stores the payload as the
conversion rate and stamps `conversionDate` with the current time (the
`Date.now()` value is the explicit argument `now`). -/
def pollFinished (conversionRate : ℚ) (now : ℕ) (s : CurrencyRateState) : CurrencyRateState :=
  { s with conversionDate := now, conversionRate := conversionRate }

/-- The condition under which reducer `updateCurrencyStarted`
(lines 482-494) throws: both payload currencies are falsy (empty). -/
def updateCurrencyStartedThrows (currentCurrency nativeCurrency : String) : Prop :=
  currentCurrency = "" ∧ nativeCurrency = ""

instance (c n : String) : Decidable (updateCurrencyStartedThrows c n) := by
  unfold updateCurrencyStartedThrows; infer_instance

/-- Reducer `updateCurrencyStarted` (lines 482-494), non-throwing part:
each truthy payload currency is stored in the corresponding pending field,
and `updateStartTime` is stored unconditionally. -/
def updateCurrencyStartedR (currentCurrency nativeCurrency : String) (updateStartTime : ℕ)
    (s : CurrencyRateState) : CurrencyRateState :=
  let s1 := if currentCurrency = "" then s
            else { s with pendingCurrentCurrency := some currentCurrency }
  let s2 := if nativeCurrency = "" then s1
            else { s1 with pendingNativeCurrency := some nativeCurrency }
  { s2 with updateStartTime := some updateStartTime }

/-- Reducer `updateCurrencyFailed` (lines 495-498): clears both pending
currency fields. -/
def updateCurrencyFailed (s : CurrencyRateState) : CurrencyRateState :=
  { s with pendingCurrentCurrency := none, pendingNativeCurrency := none }

/-- Reducer `updateCurrencyFinished` (lines 499-511).  Note the second
branch of the source (lines 507-510) tests `state.pendingCurrentCurrency`
again (not `pendingNativeCurrency`) and copies `pendingCurrentCurrency`
into `nativeCurrency`; this is embedded exactly as written. -/
def updateCurrencyFinished (conversionRate : ℚ) (now : ℕ)
    (s : CurrencyRateState) : CurrencyRateState :=
  let s1 := { s with conversionDate := now, conversionRate := conversionRate }
  let s2 := if strTruthy s1.pendingCurrentCurrency then
              { s1 with currentCurrency := s1.pendingCurrentCurrency.getD ""
                        pendingCurrentCurrency := none }
            else s1
  if strTruthy s2.pendingCurrentCurrency then
    { s2 with nativeCurrency := s2.pendingCurrentCurrency.getD ""
              pendingNativeCurrency := none }
  else s2

/-! ## The poller (`poll`, lines 539-562) and the thunks -/

/-- Whether a poll fetch that started at `fetchStartTime` dispatches
`pollFinished` when it resolves in state `s` (lines 553-561): the source
bails when `pollingStartTime` is `undefined` or greater than
`fetchStartTime`; otherwise it dispatches. -/
def pollDispatches (s : CurrencyRateState) (fetchStartTime : ℕ) : Bool :=
  match s.pollingStartTime with
  | none => false
  | some t => if t ≤ fetchStartTime then true else false

/-- Resolution of a poll fetch (lines 553-561): if the staleness check
bails, the state is unchanged; otherwise `pollFinished` is dispatched with
the fetched rate. -/
def pollResolve (fetchStartTime : ℕ) (rate : ℚ) (now : ℕ)
    (s : CurrencyRateState) : CurrencyRateState :=
  if pollDispatches s fetchStartTime then pollFinished rate now s else s

/-- The exported `stop` thunk (lines 585-587).  Its body evaluates the
action creator `pollingStopped()` but never dispatches the resulting
action, so the store state is unchanged: in particular
`pollingStartTime` is not cleared. -/
def stopThunk (s : CurrencyRateState) : CurrencyRateState :=
  s

/-- The check in `start`'s interval callback (lines 571-578): the interval
keeps running (is not cleared) exactly when the current `pollingStartTime`
still equals the one captured when `start` ran. -/
def intervalKeepsRunning (captured : ℕ) (s : CurrencyRateState) : Bool :=
  s.pollingStartTime == some captured

/-! ## Interleaving traces over the currency-rate store

A trace event is a state transition the store can undergo while poll
fetches are in flight: a `start` dispatching `pollingStarted`, a call of
the exported `stop`, the `updateCurrencyStarted` dispatch of an
`updateCurrency` thunk, or the resolution of an in-flight poll fetch. -/

inductive RateEvent where
  | started (t : ℕ)
  | stopCalled
  | updStarted (currentCurrency nativeCurrency : String) (t : ℕ)
  | fetchResolved (fetchStartTime : ℕ) (rate : ℚ) (now : ℕ)
deriving DecidableEq, Repr

/-- Apply one trace event to the store state.  An `updStarted` whose
payload would make the reducer throw leaves the state unchanged (the
exception propagates before any mutation). -/
def applyRateEvent (s : CurrencyRateState) : RateEvent → CurrencyRateState
  | RateEvent.started t => pollingStarted t s
  | RateEvent.stopCalled => stopThunk s
  | RateEvent.updStarted c n t =>
      if updateCurrencyStartedThrows c n then s else updateCurrencyStartedR c n t s
  | RateEvent.fetchResolved fst rate now => pollResolve fst rate now s

/-- Run a list of trace events from a starting state. -/
def runTrace (s : CurrencyRateState) (events : List RateEvent) : CurrencyRateState :=
  events.foldl applyRateEvent s

/-! ## The `updateCurrency` thunk (lines 589-633)

One complete run of `updateCurrency` is modelled as a function of: the two
requested currencies, this run's `updateStartTime`, an environment
function `env` describing every store mutation performed by other actors
while the fetch is in flight, the fetch's outcome, the `Date.now()` value
at completion, the `pollingStartTime` that the re-armed `start` would
dispatch, and the starting state. -/

/-- The outcome of one `updateCurrency` run: the final store state,
whether `updateCurrencyFinished`, `updateCurrencyFailed` and `start` were
dispatched, and whether the thunk threw to its caller. -/
structure UpdateResult where
  state : CurrencyRateState
  finishedDispatched : Bool
  failedDispatched : Bool
  startDispatched : Bool
  threw : Bool
deriving DecidableEq, Repr

/-- One run of `updateCurrency` (lines 589-633).  Steps, in source order:
the missing-currency guard throws; `dispatch(stop())` (state unchanged,
see `stopThunk`); `updateCurrencyStarted` is dispatched; the fetch
resolves in the state `env` produced meanwhile.  On success the run
compares its `updateStartTime` with the stored one and either bails
(superseded: nothing further is dispatched) or dispatches
`updateCurrencyFinished` followed, in the `finally` block, by `start`
(which dispatches `pollingStarted restartTime`).  On a fetch error
`updateCurrencyFailed` is dispatched, `start` re-arms polling and the
error is rethrown. -/
def updateCurrencyRun (currentCurrency nativeCurrency : String) (updateStartTime : ℕ)
    (env : CurrencyRateState → CurrencyRateState) (fetchResult : Except String ℚ)
    (finishNow restartTime : ℕ) (s0 : CurrencyRateState) : UpdateResult :=
  if updateCurrencyStartedThrows currentCurrency nativeCurrency then
    { state := s0, finishedDispatched := false, failedDispatched := false
      startDispatched := false, threw := true }
  else
    let s1 := updateCurrencyStartedR currentCurrency nativeCurrency updateStartTime
                (stopThunk s0)
    let s2 := env s1
    match fetchResult with
    | Except.error _ =>
        let s3 := updateCurrencyFailed s2
        { state := pollingStarted restartTime s3, finishedDispatched := false
          failedDispatched := true, startDispatched := true, threw := true }
    | Except.ok rate =>
        if s2.updateStartTime ≠ some updateStartTime then
          { state := s2, finishedDispatched := false, failedDispatched := false
            startDispatched := false, threw := false }
        else
          let s3 := updateCurrencyFinished rate finishNow s2
          { state := pollingStarted restartTime s3, finishedDispatched := true
            failedDispatched := false, startDispatched := true, threw := false }

/-! ## SwapsController (lines 1-413)

`BigNumber` values are rationals.  The quote records coming from the
aggregator API are modelled by the structure `SwapsQuote`, whose fields are
the ones destructured in `getBestQuoteAndEthValues` (lines 111-123);
optional fields (`gasEstimate`, `averageGas`, `approvalNeeded?.gas`,
`destinationAmount`) are `Option ℚ`, and JavaScript truthiness on numbers
(`0` is falsy) is made explicit by `jsNumTruthy` / `jsNumOr`. -/

/-- `ETH_SWAPS_TOKEN_ADDRESS` (line 15). -/
def ETH_SWAPS_TOKEN_ADDRESS : String := "0x0000000000000000000000000000000000000000"

/-- `MAX_GAS_LIMIT` (line 75). -/
def MAX_GAS_LIMIT : ℚ := 2500000

/-- JavaScript truthiness of an optional number: `undefined` and `0` are
falsy. -/
def jsNumTruthy : Option ℚ → Bool
  | none => false
  | some r => ¬ (r = 0)

/-- JavaScript `x || d` for an optional number `x`: the default `d` is
taken when `x` is `undefined` or `0`. -/
def jsNumOr (x : Option ℚ) (d : ℚ) : ℚ :=
  match x with
  | none => d
  | some r => if r = 0 then d else r

/-- Modelled from the spec: `calcTokenAmount` is imported from `../util`,
which is not under `src/`.  It is the standard conversion of an amount in
a token's minimal denomination into token units: the value divided by
`10 ^ decimals`. -/
def calcTokenAmount (value : ℚ) (decimals : ℕ) : ℚ :=
  value / 10 ^ decimals

/-- One swap quote as destructured in `getBestQuoteAndEthValues`
(lines 111-123).  `approvalNeededGas` stands for `approvalNeeded?.gas`
(`none` when `approvalNeeded` is absent), `destinationTokenDecimals` for
`destinationTokenInfo.decimals`, `tradeValue` for `trade.value`. -/
structure SwapsQuote where
  aggregator : String
  approvalNeededGas : Option ℚ
  averageGas : Option ℚ
  destinationAmount : Option ℚ
  destinationToken : String
  destinationTokenDecimals : ℕ
  gasEstimate : Option ℚ
  sourceAmount : ℚ
  sourceToken : String
  tradeValue : ℚ
deriving DecidableEq, Repr

/-- JavaScript-object lookup `quotes[key]` on the quotes map, modelled as
an insertion-ordered association list: the first binding of the key, or
`none` (`undefined`) when the key is absent. -/
def jsLookup (key : String) : List (String × SwapsQuote) → Option SwapsQuote
  | [] => none
  | (k, q) :: rest => if k = key then some q else jsLookup key rest

/-- `totalWeiCost` of a quote (lines 125-139): the gas limit used for the
calculation (the truthy `gasEstimate`, else `averageGas || MAX_GAS_LIMIT`)
plus the approval gas (`approvalNeeded?.gas || 0`), times the gas price,
plus `trade.value`. -/
def totalWeiCost (usedGasPrice : ℚ) (q : SwapsQuote) : ℚ :=
  let tradeGasLimitForCalculation :=
    if jsNumTruthy q.gasEstimate then q.gasEstimate.getD 0
    else jsNumOr q.averageGas MAX_GAS_LIMIT
  let totalGasLimitForCalculation := tradeGasLimitForCalculation + jsNumOr q.approvalNeededGas 0
  let gasTotalInWei := totalGasLimitForCalculation * usedGasPrice
  gasTotalInWei + q.tradeValue

/-- `ethFee` of a quote (lines 141-144): the total wei cost, minus
`sourceAmount` when the source token is ETH. -/
def ethFee (usedGasPrice : ℚ) (q : SwapsQuote) : ℚ :=
  if q.sourceToken = ETH_SWAPS_TOKEN_ADDRESS then
    totalWeiCost usedGasPrice q - q.sourceAmount
  else totalWeiCost usedGasPrice q

/-- `ethValueOfTrade` of a quote (lines 146-152).  `rates` is the
`contractExchangeRates` map of the sibling `TokenRatesController` (not
under `src/`), taken as a function from token addresses to optional
rates.  For an ETH destination the value is the destination amount (18
decimals) minus the total wei cost; otherwise it is
`(tokenConversionRate || 1) * calcTokenAmount(destinationAmount, decimals)`
minus the total wei cost when the rate is truthy (minus `0` otherwise). -/
def ethValueOfTrade (rates : String → Option ℚ) (usedGasPrice : ℚ) (q : SwapsQuote) : ℚ :=
  let tokenConversionRate := rates q.destinationToken
  if q.destinationToken = ETH_SWAPS_TOKEN_ADDRESS then
    calcTokenAmount (q.destinationAmount.getD 0) 18 - totalWeiCost usedGasPrice q
  else
    jsNumOr tokenConversionRate 1
      * calcTokenAmount (q.destinationAmount.getD 0) q.destinationTokenDecimals
      - (if jsNumTruthy tokenConversionRate then totalWeiCost usedGasPrice q else 0)

/-- The running state of the `forEach` loop of `getBestQuoteAndEthValues`
(lines 102-163): current best aggregator id, its trade value and fee, and
the accumulated per-quote value and fee lists. -/
structure BestAcc where
  topAggId : String
  ethTradeValueOfBestQuote : ℚ
  ethFeeForBestQuote : ℚ
  allEthTradeValues : List ℚ
  allEthFees : List ℚ
deriving DecidableEq, Repr

/-- The initial loop state (lines 102-107): empty aggregator id, zero best
value and fee, empty lists. -/
def bestInit : BestAcc :=
  { topAggId := "", ethTradeValueOfBestQuote := 0, ethFeeForBestQuote := 0
    allEthTradeValues := [], allEthFees := [] }

/-- One iteration of the loop (lines 111-163): push the quote's
`ethValueOfTrade` and `ethFee`, and take the quote as new best exactly when
its value is strictly greater than the current best
(`ethValueOfTrade.gt(ethTradeValueOfBestQuote)`). -/
def bestStep (rates : String → Option ℚ) (usedGasPrice : ℚ)
    (acc : BestAcc) (q : SwapsQuote) : BestAcc :=
  let v := ethValueOfTrade rates usedGasPrice q
  let f := ethFee usedGasPrice q
  let acc1 := { acc with allEthTradeValues := acc.allEthTradeValues ++ [v]
                         allEthFees := acc.allEthFees ++ [f] }
  if acc1.ethTradeValueOfBestQuote < v then
    { acc1 with topAggId := q.aggregator, ethTradeValueOfBestQuote := v
                ethFeeForBestQuote := f }
  else acc1

/-- `SwapsBestQuote` (lines 41-46). -/
structure SwapsBestQuote where
  topAggId : String
  ethTradeValueOfBestQuote : ℚ
  ethFeeForBestQuote : ℚ
  isBest : Bool
deriving DecidableEq, Repr

/-- `SwapValues` (lines 48-51). -/
structure SwapValues where
  allEthTradeValues : List ℚ
  allEthFees : List ℚ
deriving DecidableEq, Repr

/-- `SwapsBestQuoteAndSwapValues` (lines 53-56). -/
structure SwapsBestQuoteAndSwapValues where
  bestQuote : SwapsBestQuote
  values : SwapValues
deriving DecidableEq, Repr

/-- `SwapsSavings` (lines 35-39). -/
structure SwapsSavings where
  total : ℚ
  performance : ℚ
  fee : ℚ
deriving DecidableEq, Repr

/-- `SwapsBestQuoteAndSavings` (lines 58-61). -/
structure SwapsBestQuoteAndSavings where
  bestQuote : SwapsBestQuote
  savings : SwapsSavings
deriving DecidableEq, Repr

/-- `getBestQuoteAndEthValues` (lines 95-173).  `usedGasPrice` is the
resolved `customGasPrice || await this.getGasPrice()` (line 109); the
quotes map is an insertion-ordered association list and `Object.values`
is the list of second components.  After the loop the source reads
`quotes[topAggId].destinationToken` (line 166); when `topAggId` is not a
key of the map this is a member access on `undefined`, which throws — the
embedding returns `none` in that case. -/
def getBestQuoteAndEthValues (rates : String → Option ℚ) (usedGasPrice : ℚ)
    (quotes : List (String × SwapsQuote)) : Option SwapsBestQuoteAndSwapValues :=
  let quotesValues := quotes.map Prod.snd
  let acc := quotesValues.foldl (bestStep rates usedGasPrice) bestInit
  match jsLookup acc.topAggId quotes with
  | none => none
  | some best =>
      let isBest := (best.destinationToken = ETH_SWAPS_TOKEN_ADDRESS : Bool)
                      || jsNumTruthy (rates best.destinationToken)
      some { bestQuote := { topAggId := acc.topAggId, isBest := isBest
                            ethTradeValueOfBestQuote := acc.ethTradeValueOfBestQuote
                            ethFeeForBestQuote := acc.ethFeeForBestQuote }
             values := { allEthTradeValues := acc.allEthTradeValues
                         allEthFees := acc.allEthFees } }

/-- Modelled from the spec: `getMedian` is imported from `./SwapsUtil`,
which is not under `src/`; the source's own comments (lines 183-188) call
its results `medianValueOfAllTrades` and `medianFeeOfAllTrades`.  Modelled
as the standard median: the middle element of the sorted list for odd
length, the mean of the two middle elements for even length. -/
def getMedian (values : List ℚ) : ℚ :=
  let sorted := values.insertionSort (fun a b => a ≤ b)
  if values.length % 2 = 1 then sorted.getD (values.length / 2) 0
  else (sorted.getD (values.length / 2 - 1) 0 + sorted.getD (values.length / 2) 0) / 2

/-- `calculateSavings` (lines 181-195): performance savings are the best
trade value minus the median trade value, fee savings the median fee minus
the best quote's fee, total their sum. -/
def calculateSavings (quote : SwapsBestQuote) (values : SwapValues) : SwapsSavings :=
  let performance := quote.ethTradeValueOfBestQuote - getMedian values.allEthTradeValues
  let fee := getMedian values.allEthFees - quote.ethFeeForBestQuote
  { performance := performance, fee := fee, total := performance + fee }

/-- `findBestQuoteAndCalulateSavings` (lines 203-216): `null` on an empty
quotes map, otherwise the best quote from `getBestQuoteAndEthValues`
paired with the savings (`none` also models the propagated exception when
`getBestQuoteAndEthValues` throws). -/
def findBestQuoteAndCalulateSavings (rates : String → Option ℚ) (usedGasPrice : ℚ)
    (quotes : List (String × SwapsQuote)) : Option SwapsBestQuoteAndSavings :=
  if quotes.length = 0 then none
  else
    match getBestQuoteAndEthValues rates usedGasPrice quotes with
    | none => none
    | some r => some { bestQuote := r.bestQuote
                       savings := calculateSavings r.bestQuote r.values }

/-! ## SwapsController state and setters (lines 63-71, 303-390)

`BaseController.update` is not under `src/`.  Modelled from the spec
(Redux-style state slices cached in a state object): `update(partial)`
merges exactly the given keys into the current state, leaving every other
field unchanged.  Each setter below is therefore a record update of the
fields its `update` call passes. -/

/-- A generic JavaScript record (`Record<string, any>`), modelled as an
association list of string fields. -/
def JsRecord : Type := List (String × String)

instance : DecidableEq JsRecord := by
  unfold JsRecord; infer_instance

/-- `SwapsTokenObject` (lines 17-23). -/
structure SwapsTokenObject where
  address : String
  symbol : String
  decimals : ℕ
  occurances : Option ℕ
  iconUrl : Option String
deriving DecidableEq, Repr

/-- The `SwapsError` enum is imported from `./SwapsUtil`, which is not
under `src/`; its structure is irrelevant to every claim, so error keys
are modelled as strings. -/
def SwapsError : Type := String

instance : DecidableEq SwapsError := by
  unfold SwapsError; infer_instance

/-- The fetch-params record stored by `fetchAndSetQuotes` (line 362):
the passed `fetchParams` spread together with a `metaData` field. -/
structure FetchParamsWithMeta where
  params : JsRecord
  metaData : JsRecord
deriving DecidableEq

/-- `SwapsState` (lines 63-71). -/
structure SwapsState where
  quotes : List (String × SwapsQuote)
  fetchParams : Option FetchParamsWithMeta
  tokens : Option (List SwapsTokenObject)
  quotesLastFetched : Option ℕ
  errorKey : Option SwapsError
  topAggId : Option String
  swapsFeatureIsLive : Bool
deriving DecidableEq

/-- `setSwapsTokens` (lines 303-305): `update({ tokens: newTokens })`. -/
def setSwapsTokens (newTokens : Option (List SwapsTokenObject)) (s : SwapsState) : SwapsState :=
  { s with tokens := newTokens }

/-- `setSwapsErrorKey` (lines 307-309): `update({ errorKey: newErrorKey })`. -/
def setSwapsErrorKey (newErrorKey : Option SwapsError) (s : SwapsState) : SwapsState :=
  { s with errorKey := newErrorKey }

/-- `setQuotesLastFetched` (lines 311-313): despite its name and the name
of its parameter, the source updates the `quotes` field with the argument:
`this.update({ quotes: quotesLastFetched })`. -/
def setQuotesLastFetched (quotesLastFetched : List (String × SwapsQuote))
    (s : SwapsState) : SwapsState :=
  { s with quotes := quotesLastFetched }

/-- `setSwapsLiveness` (lines 315-317): `update({ swapsFeatureIsLive: isLive })`. -/
def setSwapsLiveness (isLive : Bool) (s : SwapsState) : SwapsState :=
  { s with swapsFeatureIsLive := isLive }

/-- `fetchAndSetQuotes` (lines 339-363) as a state transformer.  The first
component of the result records whether the function took the early
`return null` path (line 345-347).  With present `fetchParams` the body
clears the pending timer (no state field), clears `errorKey` when the
request is not a polled one, and stores the fetch params together with
`metaData`. -/
def fetchAndSetQuotes (fetchParams : Option JsRecord) (fetchParamsMetaData : JsRecord)
    (isPolledRequest : Bool) (s : SwapsState) : Bool × SwapsState :=
  match fetchParams with
  | none => (true, s)
  | some fp =>
      let s1 := if isPolledRequest then s else setSwapsErrorKey none s
      (false, { s1 with fetchParams := some { params := fp, metaData := fetchParamsMetaData } })

/-- `pollForNewQuotes` (lines 323-329): clears the pending timer, calls
`fetchAndSetQuotes(null, {}, true)` immediately, and arms a timer whose
callback makes the same call; both calls are applied to the state (the
timer callback's call composed after the immediate one). -/
def pollForNewQuotes (s : SwapsState) : SwapsState :=
  (fetchAndSetQuotes none [] true (fetchAndSetQuotes none [] true s).2).2

/-- `resetPostFetchState` (lines 377-390): `update` receives the spread of
the whole current state with `tokens`, `fetchParams` and
`swapsFeatureIsLive` re-set to their current values. -/
def resetPostFetchState (s : SwapsState) : SwapsState :=
  { s with tokens := s.tokens, fetchParams := s.fetchParams
           swapsFeatureIsLive := s.swapsFeatureIsLive }

/-! ## Concrete example inputs used by closed theorems -/

/-- An exchange-rate map with no entries (every token address unknown). -/
def noRates : String → Option ℚ := fun _ => none

/-- A minimal quote: no gas data, zero trade value and source amount, a
non-ETH destination token with zero decimals, destination amount
`amount`.  Under `noRates` and gas price `1` its `ethValueOfTrade` is
exactly `amount`. -/
def sampleQuote (aggId : String) (amount : ℚ) : SwapsQuote :=
  { aggregator := aggId, approvalNeededGas := none, averageGas := none
    destinationAmount := some amount, destinationToken := "0xToken"
    destinationTokenDecimals := 0, gasEstimate := none, sourceAmount := 0
    sourceToken := "0xSource", tradeValue := 0 }

/-- A two-entry quotes map with trade values 3 and 5. -/
def sampleQuotes : List (String × SwapsQuote) :=
  [("a", sampleQuote "a" 3), ("b", sampleQuote "b" 5)]

/-- A currency-rate state in which a currency switch is pending for both
the current and the native currency. -/
def pendingBothState : CurrencyRateState :=
  { initialCurrencyRateState with pendingCurrentCurrency := some "eur"
                                  pendingNativeCurrency := some "MATIC" }

/-! ## Helper lemmas about the best-quote loop -/

theorem bestStep_best_mono (rates : String → Option ℚ) (gp : ℚ) (acc : BestAcc)
    (q : SwapsQuote) :
    acc.ethTradeValueOfBestQuote ≤ (bestStep rates gp acc q).ethTradeValueOfBestQuote := by
  simp only [bestStep]
  split
  · next h => exact le_of_lt h
  · exact le_refl _

theorem bestStep_best_ge (rates : String → Option ℚ) (gp : ℚ) (acc : BestAcc)
    (q : SwapsQuote) :
    ethValueOfTrade rates gp q ≤ (bestStep rates gp acc q).ethTradeValueOfBestQuote := by
  simp only [bestStep]
  split
  · exact le_refl _
  · next h => exact not_lt.mp h

theorem bestStep_cases (rates : String → Option ℚ) (gp : ℚ) (acc : BestAcc)
    (q : SwapsQuote) :
    ((bestStep rates gp acc q).topAggId = q.aggregator ∧
     (bestStep rates gp acc q).ethTradeValueOfBestQuote = ethValueOfTrade rates gp q) ∨
    ((bestStep rates gp acc q).topAggId = acc.topAggId ∧
     (bestStep rates gp acc q).ethTradeValueOfBestQuote = acc.ethTradeValueOfBestQuote) := by
  simp only [bestStep]
  split
  · exact Or.inl ⟨rfl, rfl⟩
  · exact Or.inr ⟨rfl, rfl⟩

theorem foldl_best_mono (rates : String → Option ℚ) (gp : ℚ) (l : List SwapsQuote) :
    ∀ acc : BestAcc, acc.ethTradeValueOfBestQuote ≤
      (l.foldl (bestStep rates gp) acc).ethTradeValueOfBestQuote := by
  induction l with
  | nil => intro acc; exact le_refl _
  | cons a l ih =>
      intro acc
      rw [List.foldl_cons]
      exact le_trans (bestStep_best_mono rates gp acc a) (ih _)

theorem foldl_best_ub (rates : String → Option ℚ) (gp : ℚ) (l : List SwapsQuote) :
    ∀ acc : BestAcc, ∀ q ∈ l, ethValueOfTrade rates gp q ≤
      (l.foldl (bestStep rates gp) acc).ethTradeValueOfBestQuote := by
  induction l with
  | nil => intro acc q hq; cases hq
  | cons a l ih =>
      intro acc q hq
      rw [List.foldl_cons]
      rcases List.mem_cons.mp hq with rfl | hq2
      · exact le_trans (bestStep_best_ge rates gp acc q) (foldl_best_mono rates gp l _)
      · exact ih _ q hq2

theorem foldl_best_achieved (rates : String → Option ℚ) (gp : ℚ) (l : List SwapsQuote) :
    ∀ acc : BestAcc,
      ((l.foldl (bestStep rates gp) acc).topAggId = acc.topAggId ∧
       (l.foldl (bestStep rates gp) acc).ethTradeValueOfBestQuote =
         acc.ethTradeValueOfBestQuote) ∨
      ∃ q ∈ l, (l.foldl (bestStep rates gp) acc).topAggId = q.aggregator ∧
        (l.foldl (bestStep rates gp) acc).ethTradeValueOfBestQuote =
          ethValueOfTrade rates gp q := by
  induction l with
  | nil => intro acc; exact Or.inl ⟨rfl, rfl⟩
  | cons a l ih =>
      intro acc
      rw [List.foldl_cons]
      rcases ih (bestStep rates gp acc a) with ⟨htop, hval⟩ | ⟨q, hq, htop, hval⟩
      · rcases bestStep_cases rates gp acc a with ⟨ht2, hv2⟩ | ⟨ht2, hv2⟩
        · exact Or.inr ⟨a, List.mem_cons_self a l, htop.trans ht2, hval.trans hv2⟩
        · exact Or.inl ⟨htop.trans ht2, hval.trans hv2⟩
      · exact Or.inr ⟨q, List.mem_cons_of_mem a hq, htop, hval⟩

theorem jsLookup_eq_of_mem (k : String) (q : SwapsQuote) :
    ∀ quotes : List (String × SwapsQuote), (quotes.map Prod.fst).Nodup →
      (k, q) ∈ quotes → jsLookup k quotes = some q := by
  intro quotes
  induction quotes with
  | nil => intro _ hmem; cases hmem
  | cons p l ih =>
      intro hnd hmem
      cases p with
      | mk a b =>
          rw [List.map_cons, List.nodup_cons] at hnd
          rcases List.mem_cons.mp hmem with heq | hmem2
          · cases heq
            simp [jsLookup]
          · by_cases hak : a = k
            · exact absurd (hak ▸ List.mem_map.mpr ⟨(k, q), hmem2, rfl⟩) hnd.1
            · simp only [jsLookup, if_neg hak]
              exact ih hnd.2 hmem2

theorem getBest_eq_of_lookup (rates : String → Option ℚ) (gp : ℚ)
    (quotes : List (String × SwapsQuote)) (q : SwapsQuote)
    (hlook : jsLookup ((quotes.map Prod.snd).foldl (bestStep rates gp) bestInit).topAggId
      quotes = some q) :
    getBestQuoteAndEthValues rates gp quotes =
      some { bestQuote :=
               { topAggId := ((quotes.map Prod.snd).foldl (bestStep rates gp) bestInit).topAggId
                 ethTradeValueOfBestQuote :=
                   ((quotes.map Prod.snd).foldl (bestStep rates gp) bestInit).ethTradeValueOfBestQuote
                 ethFeeForBestQuote :=
                   ((quotes.map Prod.snd).foldl (bestStep rates gp) bestInit).ethFeeForBestQuote
                 isBest := (q.destinationToken = ETH_SWAPS_TOKEN_ADDRESS : Bool)
                             || jsNumTruthy (rates q.destinationToken) }
             values :=
               { allEthTradeValues :=
                   ((quotes.map Prod.snd).foldl (bestStep rates gp) bestInit).allEthTradeValues
                 allEthFees :=
                   ((quotes.map Prod.snd).foldl (bestStep rates gp) bestInit).allEthFees } } := by
  simp only [getBestQuoteAndEthValues]
  rw [hlook]

theorem findBest_eq (rates : String → Option ℚ) (gp : ℚ)
    (quotes : List (String × SwapsQuote)) (r : SwapsBestQuoteAndSwapValues)
    (hne : ¬ quotes.length = 0)
    (hget : getBestQuoteAndEthValues rates gp quotes = some r) :
    findBestQuoteAndCalulateSavings rates gp quotes =
      some { bestQuote := r.bestQuote, savings := calculateSavings r.bestQuote r.values } := by
  unfold findBestQuoteAndCalulateSavings
  rw [if_neg hne, hget]

/-! ## Claim theorems -/

/-- Claim C1, counterexample.  The claim states that for every non-empty
quotes map the returned `topAggId` identifies a quote present in the map
whose `ethValueOfTrade` is the maximum over the map.  With a single quote
whose `ethValueOfTrade` is `0`, the loop's strict comparison
(`gt` against an initial best of `0`) never fires, `topAggId` stays the
empty string, which is not a key of the map, and the source then throws
on `quotes[topAggId].destinationToken` (modelled: both functions return
`none`), so no `topAggId` identifying a quote of the map is returned. -/
theorem C1_counterexample :
    ([("agg1", sampleQuote "agg1" 0)] : List (String × SwapsQuote)) ≠ [] ∧
    ethValueOfTrade noRates 1 (sampleQuote "agg1" 0) = 0 ∧
    getBestQuoteAndEthValues noRates 1 [("agg1", sampleQuote "agg1" 0)] = none ∧
    findBestQuoteAndCalulateSavings noRates 1 [("agg1", sampleQuote "agg1" 0)] = none := by
  have hT : ("0xToken" : String) ≠ "0x0000000000000000000000000000000000000000" := by decide
  have hA : ("agg1" : String) ≠ "" := by decide
  have hget : getBestQuoteAndEthValues noRates 1 [("agg1", sampleQuote "agg1" 0)] = none := by
    norm_num [getBestQuoteAndEthValues, bestStep, bestInit, ethValueOfTrade, ethFee,
      totalWeiCost, jsNumOr, jsNumTruthy, calcTokenAmount, sampleQuote, noRates, jsLookup,
      ETH_SWAPS_TOKEN_ADDRESS, hT, hA]
  refine ⟨by decide, ?_, hget, ?_⟩
  · norm_num [ethValueOfTrade, jsNumOr, jsNumTruthy, calcTokenAmount, sampleQuote, noRates,
      ETH_SWAPS_TOKEN_ADDRESS, hT]
  · simp [findBestQuoteAndCalulateSavings, hget]

/-- Claim C1, amended.  For a quotes map in which every quote's
`aggregator` field is its key, keys do not repeat, and at least one quote
has a strictly positive `ethValueOfTrade`, `getBestQuoteAndEthValues`
returns a result whose `topAggId` is a key of the map, bound to a quote
whose `ethValueOfTrade` equals the returned best value and is maximal
among the computed `ethValueOfTrade` of all quotes in the map; and
`findBestQuoteAndCalulateSavings` returns the same best quote. -/
theorem C1_best_quote_max (rates : String → Option ℚ) (usedGasPrice : ℚ)
    (quotes : List (String × SwapsQuote))
    (hAgg : ∀ p ∈ quotes, (Prod.snd p).aggregator = p.1)
    (hNodup : (quotes.map Prod.fst).Nodup)
    (hPos : ∃ p ∈ quotes, 0 < ethValueOfTrade rates usedGasPrice p.2) :
    ∃ res, getBestQuoteAndEthValues rates usedGasPrice quotes = some res ∧
      (∃ q, jsLookup res.bestQuote.topAggId quotes = some q ∧
        res.bestQuote.ethTradeValueOfBestQuote = ethValueOfTrade rates usedGasPrice q ∧
        ∀ p ∈ quotes, ethValueOfTrade rates usedGasPrice p.2 ≤
          ethValueOfTrade rates usedGasPrice q) ∧
      ∃ res2, findBestQuoteAndCalulateSavings rates usedGasPrice quotes = some res2 ∧
        res2.bestQuote = res.bestQuote := by
  obtain ⟨p0, hp0, hpos0⟩ := hPos
  have hub := foldl_best_ub rates usedGasPrice (quotes.map Prod.snd) bestInit
  have hrpos : 0 < ((quotes.map Prod.snd).foldl (bestStep rates usedGasPrice)
      bestInit).ethTradeValueOfBestQuote :=
    lt_of_lt_of_le hpos0 (hub p0.2 (List.mem_map.mpr ⟨p0, hp0, rfl⟩))
  rcases foldl_best_achieved rates usedGasPrice (quotes.map Prod.snd) bestInit with
    ⟨_, hval⟩ | ⟨q, hql, htop, hval⟩
  · rw [hval] at hrpos
    exact absurd hrpos (by simp [bestInit])
  · obtain ⟨p, hp, hpq⟩ := List.mem_map.mp hql
    have hk : p = (q.aggregator, q) := by
      have h1 : p.2.aggregator = p.1 := hAgg p hp
      cases p with
      | mk a b =>
          simp only at hpq h1
          subst hpq
          rw [← h1]
    have hmemk : (q.aggregator, q) ∈ quotes := hk ▸ hp
    have hlook2 : jsLookup ((quotes.map Prod.snd).foldl (bestStep rates usedGasPrice)
        bestInit).topAggId quotes = some q := by
      rw [htop]
      exact jsLookup_eq_of_mem q.aggregator q quotes hNodup hmemk
    have hget := getBest_eq_of_lookup rates usedGasPrice quotes q hlook2
    have hne : ¬ quotes.length = 0 := by
      intro h0
      rw [List.length_eq_zero] at h0
      subst h0
      cases hp0
    refine ⟨_, hget, ⟨q, hlook2, hval, ?_⟩, ?_⟩
    · intro p2 hp2
      exact le_of_le_of_eq (hub p2.2 (List.mem_map.mpr ⟨p2, hp2, rfl⟩)) hval
    · exact ⟨_, findBest_eq rates usedGasPrice quotes _ hne hget, rfl⟩

/-- Claim C1, witness for the amended theorem: a concrete two-quote map
with values 3 and 5 satisfies the hypotheses, and the selection picks the
value-5 quote. -/
theorem C1_best_quote_max_witness :
    (∀ p ∈ sampleQuotes, (Prod.snd p).aggregator = p.1) ∧
    (sampleQuotes.map Prod.fst).Nodup ∧
    (∃ p ∈ sampleQuotes, 0 < ethValueOfTrade noRates 1 p.2) ∧
    (∃ res, getBestQuoteAndEthValues noRates 1 sampleQuotes = some res ∧
      (∃ q, jsLookup res.bestQuote.topAggId sampleQuotes = some q ∧
        res.bestQuote.ethTradeValueOfBestQuote = ethValueOfTrade noRates 1 q ∧
        ∀ p ∈ sampleQuotes, ethValueOfTrade noRates 1 p.2 ≤ ethValueOfTrade noRates 1 q) ∧
      ∃ res2, findBestQuoteAndCalulateSavings noRates 1 sampleQuotes = some res2 ∧
        res2.bestQuote = res.bestQuote) := by
  have hT : ("0xToken" : String) ≠ "0x0000000000000000000000000000000000000000" := by decide
  have hPos : ∃ p ∈ sampleQuotes, 0 < ethValueOfTrade noRates 1 p.2 := by
    norm_num [sampleQuotes, sampleQuote, ethValueOfTrade, jsNumOr, jsNumTruthy,
      calcTokenAmount, totalWeiCost, noRates, ETH_SWAPS_TOKEN_ADDRESS, hT]
  exact ⟨by decide, by decide, hPos,
    C1_best_quote_max noRates 1 sampleQuotes (by decide) (by decide) hPos⟩

/-- Claim C2, counterexample.  The claim states that within one polling
session, once a later-started fetch has stored its rate, an
earlier-started fetch never stores its result afterwards.  In the session
started at time 0, a fetch started at time 2 resolves first and stores
rate 10; the fetch started at time 1 then resolves, passes the source's
staleness check (which only compares against the session start, time 0),
and overwrites the stored rate with 7. -/
theorem C2_counterexample :
    (runTrace initialCurrencyRateState
      [RateEvent.started 0, RateEvent.fetchResolved 2 10 3]).conversionRate = 10 ∧
    (runTrace initialCurrencyRateState
      [RateEvent.started 0, RateEvent.fetchResolved 2 10 3,
       RateEvent.fetchResolved 1 7 4]).conversionRate = 7 := by
  exact ⟨by decide, by decide⟩

/-- Claim C2, amended.  A poll fetch result is discarded exactly under the
source's session check: if at resolution time `pollingStartTime` is
undefined, or the polling session started after the fetch did, the fetch
stores nothing; within a single session, resolution order alone decides
which fetch's rate ends up stored. -/
theorem C2_stale_discard (s : CurrencyRateState) (fetchStartTime now : ℕ) (rate : ℚ)
    (h : s.pollingStartTime = none ∨
      ∃ t, s.pollingStartTime = some t ∧ fetchStartTime < t) :
    pollResolve fetchStartTime rate now s = s := by
  rcases h with h | ⟨t, ht, hlt⟩
  · simp [pollResolve, pollDispatches, h]
  · simp [pollResolve, pollDispatches, ht, not_le.mpr hlt]

/-- Claim C2, witness: a fetch started at time 3 resolving in a session
started at time 5 stores nothing. -/
theorem C2_stale_discard_witness :
    ((pollingStarted 5 initialCurrencyRateState).pollingStartTime = none ∨
      ∃ t, (pollingStarted 5 initialCurrencyRateState).pollingStartTime = some t ∧ 3 < t) ∧
    pollResolve 3 11 6 (pollingStarted 5 initialCurrencyRateState) =
      pollingStarted 5 initialCurrencyRateState :=
  ⟨Or.inr ⟨5, rfl, by decide⟩,
   C2_stale_discard (pollingStarted 5 initialCurrencyRateState) 3 6 11
     (Or.inr ⟨5, rfl, by decide⟩)⟩

/-- Claim C3 (code bug).  The claim states that after
`updateCurrencyFinished` or `updateCurrencyFailed`, both pending fields
are null.  `updateCurrencyFailed` does clear both; but
`updateCurrencyFinished`'s second branch re-tests
`pendingCurrentCurrency` (just set to null by the first branch) instead
of `pendingNativeCurrency`, so on a state with both switches pending it
leaves `pendingNativeCurrency` set. -/
theorem C3_pending_native_survives :
    (updateCurrencyFailed pendingBothState).pendingCurrentCurrency = none ∧
    (updateCurrencyFailed pendingBothState).pendingNativeCurrency = none ∧
    (updateCurrencyFinished 42 7 pendingBothState).pendingCurrentCurrency = none ∧
    (updateCurrencyFinished 42 7 pendingBothState).pendingNativeCurrency = some "MATIC" := by
  exact ⟨by decide, by decide, by decide, by decide⟩

/-- Claim C4 (code bug).  The claim states that a poll fetch's result is
discarded once a currency update has started after the fetch started.  In
the trace below, polling starts at time 0 and a fetch starts at time 1;
`updateCurrency` then runs `dispatch(stop())` (which dispatches nothing,
see `stopThunk`) and dispatches `updateCurrencyStarted` at time 2 —
neither touches `pollingStartTime` — so when the fetch resolves at time 3
the staleness check still passes and the stale rate 5 is stored. -/
theorem C4_update_does_not_discard :
    pollDispatches (runTrace initialCurrencyRateState
      [RateEvent.started 0, RateEvent.stopCalled,
       RateEvent.updStarted "eur" "ETH" 2]) 1 = true ∧
    (runTrace initialCurrencyRateState
      [RateEvent.started 0, RateEvent.stopCalled, RateEvent.updStarted "eur" "ETH" 2,
       RateEvent.fetchResolved 1 5 3]).conversionRate = 5 := by
  exact ⟨by decide, by decide⟩

/-- Claim C5.  When the exchange-rate fetch of `updateCurrency` throws and
the update has not been superseded (the stored `updateStartTime` is still
this run's), `updateCurrencyFailed` is dispatched, both pending currency
fields of the final state are null, `start` is dispatched re-arming
polling, and the error is rethrown to the caller. -/
theorem C5_error_clears_pending (currentCurrency nativeCurrency : String)
    (updateStartTime finishNow restartTime : ℕ)
    (env : CurrencyRateState → CurrencyRateState) (e : String) (s0 : CurrencyRateState)
    (hcur : ¬ updateCurrencyStartedThrows currentCurrency nativeCurrency)
    (hfresh : (env (updateCurrencyStartedR currentCurrency nativeCurrency updateStartTime
        (stopThunk s0))).updateStartTime = some updateStartTime) :
    (updateCurrencyRun currentCurrency nativeCurrency updateStartTime env (Except.error e)
        finishNow restartTime s0).failedDispatched = true ∧
    (updateCurrencyRun currentCurrency nativeCurrency updateStartTime env (Except.error e)
        finishNow restartTime s0).state.pendingCurrentCurrency = none ∧
    (updateCurrencyRun currentCurrency nativeCurrency updateStartTime env (Except.error e)
        finishNow restartTime s0).state.pendingNativeCurrency = none ∧
    (updateCurrencyRun currentCurrency nativeCurrency updateStartTime env (Except.error e)
        finishNow restartTime s0).startDispatched = true ∧
    (updateCurrencyRun currentCurrency nativeCurrency updateStartTime env (Except.error e)
        finishNow restartTime s0).threw = true := by
  simp [updateCurrencyRun, hcur, updateCurrencyFailed, pollingStarted]

/-- Claim C5, witness: a concrete failing fetch with no interference. -/
theorem C5_error_clears_pending_witness :
    (¬ updateCurrencyStartedThrows "eur" "ETH") ∧
    ((id (updateCurrencyStartedR "eur" "ETH" 1
        (stopThunk initialCurrencyRateState))).updateStartTime = some 1) ∧
    ((updateCurrencyRun "eur" "ETH" 1 id (Except.error "boom") 2 3
        initialCurrencyRateState).failedDispatched = true ∧
     (updateCurrencyRun "eur" "ETH" 1 id (Except.error "boom") 2 3
        initialCurrencyRateState).state.pendingCurrentCurrency = none ∧
     (updateCurrencyRun "eur" "ETH" 1 id (Except.error "boom") 2 3
        initialCurrencyRateState).state.pendingNativeCurrency = none ∧
     (updateCurrencyRun "eur" "ETH" 1 id (Except.error "boom") 2 3
        initialCurrencyRateState).startDispatched = true ∧
     (updateCurrencyRun "eur" "ETH" 1 id (Except.error "boom") 2 3
        initialCurrencyRateState).threw = true) :=
  ⟨by decide, by decide,
   C5_error_clears_pending "eur" "ETH" 1 2 3 id "boom" initialCurrencyRateState
     (by decide) (by decide)⟩

/-- Claim C6 (code bug).  The claim states that the exported `stop()`
clears `pollingStartTime`, so no in-flight fetch stores its result and
the interval terminates.  In fact `stop()` calls the `pollingStopped`
action creator without dispatching it: `pollingStartTime` keeps its value
(unlike a genuine `pollingStopped` dispatch, shown for contrast), an
in-flight fetch still passes the staleness check, and the interval's
restart check still matches, so polling continues. -/
theorem C6_stop_does_not_cancel :
    (stopThunk (pollingStarted 0 initialCurrencyRateState)).pollingStartTime = some 0 ∧
    (pollingStopped (pollingStarted 0 initialCurrencyRateState)).pollingStartTime = none ∧
    pollDispatches (stopThunk (pollingStarted 0 initialCurrencyRateState)) 1 = true ∧
    intervalKeepsRunning 0 (stopThunk (pollingStarted 0 initialCurrencyRateState)) = true := by
  exact ⟨by decide, by decide, by decide, by decide⟩

/-- Claim C7.  If, by the time the first `updateCurrency`'s fetch
resolves, the stored `updateStartTime` is no longer this run's (a second
update started meanwhile), the run dispatches nothing further:
`updateCurrencyFinished` is not dispatched, the final state is exactly
the state the interleaved environment produced (no rate stored, no
currency switched by this run), and polling is not re-armed by it. -/
theorem C7_superseded_update_discarded (currentCurrency nativeCurrency : String)
    (updateStartTime finishNow restartTime : ℕ)
    (env : CurrencyRateState → CurrencyRateState) (rate : ℚ) (s0 : CurrencyRateState)
    (hcur : ¬ updateCurrencyStartedThrows currentCurrency nativeCurrency)
    (hstale : (env (updateCurrencyStartedR currentCurrency nativeCurrency updateStartTime
        (stopThunk s0))).updateStartTime ≠ some updateStartTime) :
    (updateCurrencyRun currentCurrency nativeCurrency updateStartTime env (Except.ok rate)
        finishNow restartTime s0).finishedDispatched = false ∧
    (updateCurrencyRun currentCurrency nativeCurrency updateStartTime env (Except.ok rate)
        finishNow restartTime s0).state =
      env (updateCurrencyStartedR currentCurrency nativeCurrency updateStartTime
        (stopThunk s0)) ∧
    (updateCurrencyRun currentCurrency nativeCurrency updateStartTime env (Except.ok rate)
        finishNow restartTime s0).startDispatched = false := by
  simp [updateCurrencyRun, hcur, hstale]

/-- Claim C7, witness: a second update (start time 9) supersedes the first
(start time 5); the first run's resolution changes nothing. -/
theorem C7_superseded_update_discarded_witness :
    (¬ updateCurrencyStartedThrows "eur" "ETH") ∧
    ((updateCurrencyStartedR "usd" "ETH" 9 (updateCurrencyStartedR "eur" "ETH" 5
        (stopThunk initialCurrencyRateState))).updateStartTime ≠ some 5) ∧
    ((updateCurrencyRun "eur" "ETH" 5 (updateCurrencyStartedR "usd" "ETH" 9) (Except.ok 4) 2 3
        initialCurrencyRateState).finishedDispatched = false ∧
     (updateCurrencyRun "eur" "ETH" 5 (updateCurrencyStartedR "usd" "ETH" 9) (Except.ok 4) 2 3
        initialCurrencyRateState).state =
       updateCurrencyStartedR "usd" "ETH" 9 (updateCurrencyStartedR "eur" "ETH" 5
         (stopThunk initialCurrencyRateState)) ∧
     (updateCurrencyRun "eur" "ETH" 5 (updateCurrencyStartedR "usd" "ETH" 9) (Except.ok 4) 2 3
        initialCurrencyRateState).startDispatched = false) :=
  ⟨by decide, by decide,
   C7_superseded_update_discarded "eur" "ETH" 5 2 3 (updateCurrencyStartedR "usd" "ETH" 9) 4
     initialCurrencyRateState (by decide) (by decide)⟩

/-- Claim C8.  `resetPostFetchState` writes a state built entirely from
the current state, so every field — `quotes`, `fetchParams`, `tokens`,
`quotesLastFetched`, `errorKey`, `topAggId`, `swapsFeatureIsLive` —
keeps its prior value. -/
theorem C8_reset_frame (s : SwapsState) :
    (resetPostFetchState s).quotes = s.quotes ∧
    (resetPostFetchState s).fetchParams = s.fetchParams ∧
    (resetPostFetchState s).tokens = s.tokens ∧
    (resetPostFetchState s).quotesLastFetched = s.quotesLastFetched ∧
    (resetPostFetchState s).errorKey = s.errorKey ∧
    (resetPostFetchState s).topAggId = s.topAggId ∧
    (resetPostFetchState s).swapsFeatureIsLive = s.swapsFeatureIsLive :=
  ⟨rfl, rfl, rfl, rfl, rfl, rfl, rfl⟩

/-- Claim C9.  `setQuotesLastFetched q` sets the `quotes` field of the
state to its argument and leaves `quotesLastFetched` and every other
field unchanged. -/
theorem C9_setQuotesLastFetched_frame (q : List (String × SwapsQuote)) (s : SwapsState) :
    (setQuotesLastFetched q s).quotes = q ∧
    (setQuotesLastFetched q s).quotesLastFetched = s.quotesLastFetched ∧
    (setQuotesLastFetched q s).fetchParams = s.fetchParams ∧
    (setQuotesLastFetched q s).tokens = s.tokens ∧
    (setQuotesLastFetched q s).errorKey = s.errorKey ∧
    (setQuotesLastFetched q s).topAggId = s.topAggId ∧
    (setQuotesLastFetched q s).swapsFeatureIsLive = s.swapsFeatureIsLive :=
  ⟨rfl, rfl, rfl, rfl, rfl, rfl, rfl⟩

/-- Claim C10.  `fetchAndSetQuotes` with null `fetchParams` takes the
early `return null` path and leaves the state unchanged, whatever the
other arguments; consequently `pollForNewQuotes`, whose two calls both
pass null `fetchParams`, never modifies the state. -/
theorem C10_null_fetchParams_noop (fetchParamsMetaData : JsRecord)
    (isPolledRequest : Bool) (s : SwapsState) :
    (fetchAndSetQuotes none fetchParamsMetaData isPolledRequest s).1 = true ∧
    (fetchAndSetQuotes none fetchParamsMetaData isPolledRequest s).2 = s ∧
    pollForNewQuotes s = s :=
  ⟨rfl, rfl, rfl⟩
